import Mathlib

/-!
Verification development for the CloudLens tenant-scoped authentication and
credential-encryption core (Next.js frontend: `middleware.ts`, the
`EncryptionService`, the `ApiClient`, and the auth-context storage helpers).

Shallow embedding conventions:
* JavaScript byte buffers are `List Nat` with every element `< 256`.
* JavaScript strings are Lean `String`s; where byte-level content matters
  (plaintexts fed to the cipher, secrets fed to key preparation) they are
  represented by their code-unit / byte lists, as noted at each definition.
* Fallible JavaScript code (`throw`) is `Except`/`Option`; `undefined` is
  `Option.none`.
-/

namespace CloudLens

/-! ## Base64

Model of Node's `Buffer.toString('base64')` (canonical, padded encoding) and
of the lenient decoding performed by `Buffer.from(s, 'base64')`, which skips
characters outside the base64 alphabet. -/

/-- The standard base64 alphabet, index `n` holding the digit for sextet `n`. -/
def b64Alphabet : List Char :=
  "ABCDEFGHIJKLMNOPQRSTUVWXYZabcdefghijklmnopqrstuvwxyz0123456789+/".data

/-- Base64 digit for a sextet value. -/
def b64Char (n : Nat) : Char := b64Alphabet.getD n '='

/-- Index of a character in a list, starting the count at `i`. -/
def charIdxFrom (c : Char) : List Char → Nat → Option Nat
  | [], _ => none
  | d :: ds, i => if c = d then some i else charIdxFrom c ds (i + 1)

/-- Sextet value of a base64 digit; `none` for characters outside the alphabet
(including `=`). -/
def sextet? (c : Char) : Option Nat := charIdxFrom c b64Alphabet 0

/-- Canonical base64 encoding of a byte list, three bytes per four digits,
`=`-padded, exactly as `Buffer.toString('base64')` produces it. -/
def b64E : List Nat → List Char
  | [] => []
  | [b1] => [b64Char (b1 / 4), b64Char (b1 % 4 * 16), '=', '=']
  | [b1, b2] =>
      [b64Char (b1 / 4), b64Char (b1 % 4 * 16 + b2 / 16), b64Char (b2 % 16 * 4), '=']
  | b1 :: b2 :: b3 :: rest =>
      b64Char (b1 / 4) :: b64Char (b1 % 4 * 16 + b2 / 16) ::
      b64Char (b2 % 16 * 4 + b3 / 64) :: b64Char (b3 % 64) :: b64E rest

/-- Reassemble bytes from a list of sextets; trailing groups of two or three
sextets contribute one or two bytes. -/
def sextetsToBytes : List Nat → List Nat
  | s1 :: s2 :: s3 :: s4 :: rest =>
      (s1 * 4 + s2 / 16) :: (s2 % 16 * 16 + s3 / 4) :: (s3 % 4 * 64 + s4) ::
        sextetsToBytes rest
  | [s1, s2, s3] => [s1 * 4 + s2 / 16, s2 % 16 * 16 + s3 / 4]
  | [s1, s2] => [s1 * 4 + s2 / 16]
  | _ => []

/-- Lenient base64 decoding as `Buffer.from(s, 'base64')` performs it:
characters outside the alphabet (among them `=`) are skipped, the remaining
sextets are reassembled into bytes. -/
def b64D (cs : List Char) : List Nat := sextetsToBytes (cs.filterMap sextet?)

theorem sextet_b64Char : ∀ n, n < 64 → sextet? (b64Char n) = some n := by decide

theorem sextet_eq_none : sextet? '=' = none := by decide

theorem b64D_b64E (l : List Nat) (h : ∀ x ∈ l, x < 256) : b64D (b64E l) = l := by
  induction l using b64E.induct with
  | case1 => rfl
  | case2 b1 =>
      have h1 : b1 < 256 := h b1 (by simp)
      have e1 : sextet? (b64Char (b1 / 4)) = some (b1 / 4) :=
        sextet_b64Char _ (by omega)
      have e2 : sextet? (b64Char (b1 % 4 * 16)) = some (b1 % 4 * 16) :=
        sextet_b64Char _ (by omega)
      simp [b64E, b64D, List.filterMap, e1, e2, sextet_eq_none, sextetsToBytes]
      omega
  | case3 b1 b2 =>
      have h1 : b1 < 256 := h b1 (by simp)
      have h2 : b2 < 256 := h b2 (by simp)
      have e1 : sextet? (b64Char (b1 / 4)) = some (b1 / 4) :=
        sextet_b64Char _ (by omega)
      have e2 : sextet? (b64Char (b1 % 4 * 16 + b2 / 16)) = some (b1 % 4 * 16 + b2 / 16) :=
        sextet_b64Char _ (by omega)
      have e3 : sextet? (b64Char (b2 % 16 * 4)) = some (b2 % 16 * 4) :=
        sextet_b64Char _ (by omega)
      simp [b64E, b64D, List.filterMap, e1, e2, e3, sextet_eq_none, sextetsToBytes]
      omega
  | case4 b1 b2 b3 rest ih =>
      have h1 : b1 < 256 := h b1 (by simp)
      have h2 : b2 < 256 := h b2 (by simp)
      have h3 : b3 < 256 := h b3 (by simp)
      have e1 : sextet? (b64Char (b1 / 4)) = some (b1 / 4) :=
        sextet_b64Char _ (by omega)
      have e2 : sextet? (b64Char (b1 % 4 * 16 + b2 / 16)) = some (b1 % 4 * 16 + b2 / 16) :=
        sextet_b64Char _ (by omega)
      have e3 : sextet? (b64Char (b2 % 16 * 4 + b3 / 64)) = some (b2 % 16 * 4 + b3 / 64) :=
        sextet_b64Char _ (by omega)
      have e4 : sextet? (b64Char (b3 % 64)) = some (b3 % 64) :=
        sextet_b64Char _ (by omega)
      have ih' : b64D (b64E rest) = rest := ih (fun x hx => h x (by simp [hx]))
      simp only [b64D] at ih'
      simp only [b64E, b64D, List.filterMap, e1, e2, e3, e4, sextetsToBytes, ih',
        List.cons.injEq]
      refine ⟨by omega, by omega, by omega, trivial⟩

theorem b64E_ne_nil (l : List Nat) (h : l ≠ []) : b64E l ≠ [] := by
  match l with
  | [] => exact absurd rfl h
  | [b1] => simp [b64E]
  | [b1, b2] => simp [b64E]
  | b1 :: b2 :: b3 :: rest => simp [b64E]

theorem b64E_all_lt (l : List Nat) (h : ∀ x ∈ l, x < 256) :
    ∀ b ∈ b64D (b64E l), b < 256 := by
  intro b hb
  rw [b64D_b64E l h] at hb
  exact h b hb

/-! ## PKCS#7 padding

The padding applied (and checked on removal) by OpenSSL behind Node's
`createCipheriv('aes-256-cbc', ...)` / `createDecipheriv`: pad with `k`
bytes of value `k`, `1 ≤ k ≤ 16`; on removal every padding byte is checked. -/

/-- Number of padding bytes appended for a plaintext of length `n`. -/
def padLen (n : Nat) : Nat := 16 - n % 16

/-- Append PKCS#7 padding, bringing the length to a positive multiple of 16. -/
def pkcs7Pad (l : List Nat) : List Nat :=
  l ++ List.replicate (padLen l.length) (padLen l.length)

/-- Strip and verify PKCS#7 padding; `none` models the `bad decrypt` error
OpenSSL raises on invalid padding. -/
def pkcs7Unpad (l : List Nat) : Option (List Nat) :=
  match l.getLast? with
  | none => none
  | some k =>
      if 1 ≤ k ∧ k ≤ 16 ∧ k ≤ l.length ∧ (l.drop (l.length - k)).all (· = k) then
        some (l.take (l.length - k))
      else none

theorem padLen_pos (n : Nat) : 1 ≤ padLen n := by
  have : n % 16 < 16 := Nat.mod_lt n (by omega)
  unfold padLen; omega

theorem padLen_le (n : Nat) : padLen n ≤ 16 := by unfold padLen; omega

theorem pkcs7Pad_length (l : List Nat) :
    (pkcs7Pad l).length = l.length + padLen l.length := by
  simp [pkcs7Pad]

theorem pkcs7Pad_length_mod (l : List Nat) : (pkcs7Pad l).length % 16 = 0 := by
  rw [pkcs7Pad_length]
  have : l.length % 16 < 16 := Nat.mod_lt l.length (by omega)
  unfold padLen
  omega

theorem pkcs7Pad_ne_nil (l : List Nat) : pkcs7Pad l ≠ [] := by
  have h1 := padLen_pos l.length
  have h2 := pkcs7Pad_length l
  intro hc
  rw [hc] at h2
  simp at h2
  omega

theorem getLast?_replicate_pos (k v : Nat) (h : 1 ≤ k) :
    (List.replicate k v).getLast? = some v := by
  cases k with
  | zero => omega
  | succ n =>
      rw [List.replicate_succ', List.getLast?_append_of_ne_nil]
      · rfl
      · simp

theorem pkcs7Unpad_pad (l : List Nat) : pkcs7Unpad (pkcs7Pad l) = some l := by
  have hpos := padLen_pos l.length
  have hle := padLen_le l.length
  have hlast : (pkcs7Pad l).getLast? = some (padLen l.length) := by
    unfold pkcs7Pad
    rw [List.getLast?_append_of_ne_nil, getLast?_replicate_pos _ _ hpos]
    simp
    omega
  have hlen := pkcs7Pad_length l
  have hsub : (pkcs7Pad l).length - padLen l.length = l.length := by omega
  have hdrop : (pkcs7Pad l).drop l.length
      = List.replicate (padLen l.length) (padLen l.length) := by
    unfold pkcs7Pad
    rw [List.drop_left]
  have htake : (pkcs7Pad l).take l.length = l := by
    unfold pkcs7Pad
    rw [List.take_left]
  unfold pkcs7Unpad
  simp only [hlast]
  rw [if_pos]
  · rw [hsub, htake]
  · refine ⟨hpos, hle, by omega, ?_⟩
    rw [hsub, hdrop]
    simp

/-! ## CBC mode

CBC chaining as OpenSSL applies it inside `createCipheriv` /
`createDecipheriv`, parameterised by the keyed 16-byte block permutation
`E` (resp. its inverse `D`).  Modelled from the spec: the AES-256 block
primitive itself lives in Node's `crypto` library, outside this repository;
the spec describes it only as "a block cipher (256-bit key, CBC mode,
PKCS-style padding)", so it is modelled as an arbitrary block permutation
passed in as a parameter. -/

/-- Byte-wise xor of two buffers (the buffers always have length 16 here). -/
def xorBytes (a b : List Nat) : List Nat := List.zipWith Nat.xor a b

/-- CBC encryption of `l` (length a multiple of 16) with chaining value
`prev` (the IV for the first block). -/
def cbcE (E : List Nat → List Nat) (prev l : List Nat) : List Nat :=
  if l = [] then []
  else
    let c := E (xorBytes prev (l.take 16))
    c ++ cbcE E c (l.drop 16)
termination_by l.length
decreasing_by
  rename_i hl
  simp only [List.length_drop]
  cases l with
  | nil => exact absurd rfl hl
  | cons x xs => simp; omega

/-- CBC decryption, inverse of `cbcE`. -/
def cbcD (D : List Nat → List Nat) (prev l : List Nat) : List Nat :=
  if l = [] then []
  else
    let c := l.take 16
    xorBytes prev (D c) ++ cbcD D c (l.drop 16)
termination_by l.length
decreasing_by
  rename_i hl
  simp only [List.length_drop]
  cases l with
  | nil => exact absurd rfl hl
  | cons x xs => simp; omega

theorem xorBytes_length (a b : List Nat) :
    (xorBytes a b).length = min a.length b.length := by
  simp [xorBytes]

theorem natXor_lt_256 (x y : Nat) (hx : x < 256) (hy : y < 256) :
    Nat.xor x y < 256 := by
  have h : Nat.bitwise bne x y < 2 ^ 8 :=
    Nat.bitwise_lt (by norm_num; omega) (by norm_num; omega)
  have e : Nat.xor x y = Nat.bitwise bne x y := rfl
  rw [e]
  omega

theorem xorBytes_cancel (a : List Nat) : ∀ b : List Nat,
    a.length = b.length → xorBytes a (xorBytes a b) = b := by
  induction a with
  | nil =>
      intro b hb
      simp [xorBytes]
      cases b with
      | nil => rfl
      | cons y ys => simp at hb
  | cons x xs ih =>
      intro b hb
      cases b with
      | nil => simp at hb
      | cons y ys =>
          have hlen : xs.length = ys.length := by simpa using hb
          simp only [xorBytes, List.zipWith] at *
          refine congrArg₂ List.cons (Nat.xor_cancel_left x y) (ih ys hlen)

theorem xorBytes_all_lt (a : List Nat) : ∀ b : List Nat, (∀ x ∈ a, x < 256) →
    (∀ x ∈ b, x < 256) → ∀ x ∈ xorBytes a b, x < 256 := by
  induction a with
  | nil => intro b _ _ x hx; simp [xorBytes] at hx
  | cons c cs ih =>
      intro b ha hb x hx
      cases b with
      | nil => simp [xorBytes] at hx
      | cons d ds =>
          simp only [xorBytes, List.zipWith, List.mem_cons] at hx
          rcases hx with rfl | hx
          · exact natXor_lt_256 c d (ha c (by simp)) (hb d (by simp))
          · exact ih ds (fun z hz => ha z (by simp [hz]))
              (fun z hz => hb z (by simp [hz])) x hx

/-- Well-formedness of the keyed block primitive: on well-formed 16-byte
blocks it returns a well-formed 16-byte block. -/
def BlockFun (E : List Nat → List Nat) : Prop :=
  ∀ b : List Nat, b.length = 16 → (∀ x ∈ b, x < 256) →
    (E b).length = 16 ∧ ∀ x ∈ E b, x < 256

theorem cbcE_length (E : List Nat → List Nat) (hE : BlockFun E) :
    ∀ l prev : List Nat, l.length % 16 = 0 → prev.length = 16 →
    (∀ x ∈ l, x < 256) → (∀ x ∈ prev, x < 256) →
    (cbcE E prev l).length = l.length ∧ ∀ x ∈ cbcE E prev l, x < 256 := by
  suffices key : ∀ n : Nat, ∀ l' : List Nat, l'.length = n →
      ∀ prev : List Nat, l'.length % 16 = 0 → prev.length = 16 →
      (∀ x ∈ l', x < 256) → (∀ x ∈ prev, x < 256) →
      (cbcE E prev l').length = l'.length ∧ ∀ x ∈ cbcE E prev l', x < 256 by
    intro l prev h1 h2 h3 h4
    exact key l.length l rfl prev h1 h2 h3 h4
  intro n
  induction n using Nat.strong_induction_on with
  | _ n ih => ?_
  intro l' hln prev hmod hprev hl256 hprev256
  by_cases hnil : l' = []
  · subst hnil; rw [cbcE]; simp
  · rw [cbcE, if_neg hnil]
    have hlenpos : 0 < l'.length := List.length_pos.mpr hnil
    have hge : 16 ≤ l'.length := by omega
    have htake_len : (l'.take 16).length = 16 := by
      simp [List.length_take]; omega
    have htake256 : ∀ x ∈ l'.take 16, x < 256 :=
      fun x hx => hl256 x (List.mem_of_mem_take hx)
    have hxlen : (xorBytes prev (l'.take 16)).length = 16 := by
      rw [xorBytes_length]; omega
    have hx256 : ∀ x ∈ xorBytes prev (l'.take 16), x < 256 :=
      xorBytes_all_lt prev (l'.take 16) hprev256 htake256
    obtain ⟨hclen, hc256⟩ := hE _ hxlen hx256
    have hdlen : (l'.drop 16).length = l'.length - 16 := by simp
    have hdmod : (l'.drop 16).length % 16 = 0 := by omega
    have hd256 : ∀ x ∈ l'.drop 16, x < 256 :=
      fun x hx => hl256 x (List.mem_of_mem_drop hx)
    obtain ⟨hrlen, hr256⟩ := ih (l'.length - 16) (by omega) (l'.drop 16)
      (by simp) _ hdmod hclen hd256 hc256
    constructor
    · simp only [List.length_append, hclen, hrlen, hdlen]
      omega
    · intro x hx
      rcases List.mem_append.mp hx with hx | hx
      · exact hc256 x hx
      · exact hr256 x hx

theorem cbcD_cbcE (E D : List Nat → List Nat) (hE : BlockFun E)
    (hD : ∀ b : List Nat, b.length = 16 → (∀ x ∈ b, x < 256) → D (E b) = b) :
    ∀ l prev : List Nat, l.length % 16 = 0 → prev.length = 16 →
    (∀ x ∈ l, x < 256) → (∀ x ∈ prev, x < 256) →
    cbcD D prev (cbcE E prev l) = l := by
  suffices key : ∀ n : Nat, ∀ l' : List Nat, l'.length = n →
      ∀ prev : List Nat, l'.length % 16 = 0 → prev.length = 16 →
      (∀ x ∈ l', x < 256) → (∀ x ∈ prev, x < 256) →
      cbcD D prev (cbcE E prev l') = l' by
    intro l prev h1 h2 h3 h4
    exact key l.length l rfl prev h1 h2 h3 h4
  intro n
  induction n using Nat.strong_induction_on with
  | _ n ih => ?_
  intro l' hln prev hmod hprev hl256 hprev256
  by_cases hnil : l' = []
  · subst hnil; rw [cbcE, cbcD]; simp
  · rw [cbcE, if_neg hnil]
    have hlenpos : 0 < l'.length := List.length_pos.mpr hnil
    have hge : 16 ≤ l'.length := by omega
    have htake_len : (l'.take 16).length = 16 := by
      simp [List.length_take]; omega
    have htake256 : ∀ x ∈ l'.take 16, x < 256 :=
      fun x hx => hl256 x (List.mem_of_mem_take hx)
    have hxlen : (xorBytes prev (l'.take 16)).length = 16 := by
      rw [xorBytes_length]; omega
    have hx256 : ∀ x ∈ xorBytes prev (l'.take 16), x < 256 :=
      xorBytes_all_lt prev (l'.take 16) hprev256 htake256
    obtain ⟨hclen, hc256⟩ := hE _ hxlen hx256
    have hdmod : (l'.drop 16).length % 16 = 0 := by
      simp only [List.length_drop]; omega
    have hd256 : ∀ x ∈ l'.drop 16, x < 256 :=
      fun x hx => hl256 x (List.mem_of_mem_drop hx)
    set c := E (xorBytes prev (l'.take 16)) with hc
    set rest := cbcE E c (l'.drop 16) with hrest
    have hcr_ne : c ++ rest ≠ [] := by
      intro hcon
      have : c = [] := by
        cases hap : c with
        | nil => rfl
        | cons a as => rw [hap] at hcon; simp at hcon
      rw [this] at hclen
      simp at hclen
    have htakec : (c ++ rest).take 16 = c := by
      rw [← hclen, List.take_left]
    have hdropc : (c ++ rest).drop 16 = rest := by
      rw [← hclen, List.drop_left]
    rw [cbcD]
    simp only [if_neg hcr_ne, htakec, hdropc]
    have hDc : D c = xorBytes prev (l'.take 16) := hD _ hxlen hx256
    rw [hDc, xorBytes_cancel prev (l'.take 16) (by omega)]
    have hihrest : cbcD D c rest = l'.drop 16 := by
      rw [hrest]
      exact ih (l'.drop 16).length (by simp; omega) (l'.drop 16) rfl c
        hdmod hclen hd256 hc256
    rw [hihrest, List.take_append_drop]

/-! ## EncryptionService (frontend `EncryptionService` class)

`prepareKey`, `encrypt`, `decrypt` and `encryptAWSCredentials` from the
frontend encryption module.  JavaScript strings handed to
`Buffer.from(s, 'utf-8')` are modelled as lists of UTF-16 code units
(`List Nat`); plaintext/ciphertext byte buffers are `List Nat` of bytes. -/

/-- UTF-8 bytes of a single code unit that is not part of a surrogate pair:
ASCII and BMP units take 1-3 bytes; a lone surrogate becomes the replacement
character `EF BF BD`. -/
def utf8One (u : Nat) : List Nat :=
  if u < 0x80 then [u]
  else if u < 0x800 then [0xC0 + u / 64, 0x80 + u % 64]
  else if u < 0xD800 ∨ 0xE000 ≤ u then
    [0xE0 + u / 4096, 0x80 + u / 64 % 64, 0x80 + u % 64]
  else [0xEF, 0xBF, 0xBD]

/-- UTF-8 encoding of a list of UTF-16 code units, as `Buffer.from(s, 'utf-8')`
performs it: a well-formed surrogate pair takes 4 bytes, every other unit is
encoded by `utf8One`. -/
def utf8EncodeUnits : List Nat → List Nat
  | [] => []
  | [u] => utf8One u
  | u :: r :: rest =>
      if 0xD800 ≤ u ∧ u < 0xDC00 ∧ 0xDC00 ≤ r ∧ r < 0xE000 then
        let cp := 0x10000 + (u - 0xD800) * 1024 + (r - 0xDC00)
        (0xF0 + cp / 262144) :: (0x80 + cp / 4096 % 64) ::
          (0x80 + cp / 64 % 64) :: (0x80 + cp % 64) :: utf8EncodeUnits rest
      else utf8One u ++ utf8EncodeUnits (r :: rest)

/-- Key preparation from `EncryptionService.prepareKey`: pad the secret with
`'0'` (code unit 48) up to 32 *code units* when shorter, truncate to 32 code
units when longer, then take the UTF-8 bytes of the result. -/
def prepareKey (key : List Nat) : List Nat :=
  let processedKey :=
    if key.length < 32 then key ++ List.replicate (32 - key.length) 48
    else if key.length > 32 then key.take 32
    else key
  utf8EncodeUnits processedKey

/-- `EncryptionService.encrypt`: empty plaintext short-circuits to `""`;
otherwise the PKCS#7-padded plaintext is CBC-encrypted under the keyed block
permutation `E` with the freshly drawn 16-byte IV `iv`, and `IV || ciphertext`
is base64-encoded.  The plaintext is given by its UTF-8 bytes; the random IV
draw (`crypto.randomBytes(16)`) is modelled by passing the drawn IV in. -/
def encrypt (E : List Nat → List Nat) (iv plaintext : List Nat) : String :=
  if plaintext = [] then ""
  else String.mk (b64E (iv ++ cbcE E iv (pkcs7Pad plaintext)))

/-- `EncryptionService.decrypt`: empty input short-circuits to `ok []`;
otherwise base64-decode, split off the first 16 bytes as IV, CBC-decrypt the
remainder under `D` and strip the padding.  Every failure Node's
`createDecipheriv` pipeline raises (IV shorter than 16 bytes, ciphertext body
not a positive multiple of the block size, bad padding) is re-thrown by the
source as an `Error` whose message starts with `Failed to decrypt data:`;
those throws are the `Except.error` results.  The recovered plaintext is
returned as its byte list (the source applies `toString('utf8')` to it). -/
def decrypt (D : List Nat → List Nat) (encryptedData : String) :
    Except String (List Nat) :=
  if encryptedData = "" then .ok []
  else
    let combined := b64D encryptedData.data
    if combined.length < 16 then
      .error "Failed to decrypt data: Invalid initialization vector"
    else
      let iv := combined.take 16
      let body := combined.drop 16
      if body.length = 0 ∨ body.length % 16 ≠ 0 then
        .error "Failed to decrypt data: wrong final block length"
      else
        match pkcs7Unpad (cbcD D iv body) with
        | none => .error "Failed to decrypt data: bad decrypt"
        | some p => .ok p

/-- Value of one field of the object literal returned by
`encryptAWSCredentials`: either a string or JavaScript `undefined`. -/
inductive JsFieldVal where
  | undef : JsFieldVal
  | str : String → JsFieldVal
deriving DecidableEq

/-- `EncryptionService.encryptAWSCredentials`: builds the object literal with
its three keys; the session-token entry is `undefined` when `sessionToken`
is absent or empty (JavaScript falsiness), otherwise the encryption of the
token.  Each field is encrypted with its own fresh IV (`ivA`, `ivS`, `ivT`). -/
def encryptAWSCredentials (E : List Nat → List Nat) (ivA ivS ivT : List Nat)
    (accessKey secretKey : List Nat) (sessionToken : Option (List Nat)) :
    List (String × JsFieldVal) :=
  [("encrypted_aws_access_key", .str (encrypt E ivA accessKey)),
   ("encrypted_aws_secret_key", .str (encrypt E ivS secretKey)),
   ("encrypted_aws_session_token",
     match sessionToken with
     | some t => if t = [] then .undef else .str (encrypt E ivT t)
     | none => .undef)]

/-- Keys present on a JavaScript object (`Object.keys` / the `in` operator):
every key of the literal, whatever its value. -/
def ownKeys (o : List (String × JsFieldVal)) : List String := o.map Prod.fst

/-- Keys surviving JSON serialisation: `JSON.stringify` drops keys whose
value is `undefined`. -/
def jsonKeys (o : List (String × JsFieldVal)) : List String :=
  (o.filter (fun p => p.2 ≠ JsFieldVal.undef)).map Prod.fst

/-- Field lookup on the object literal. -/
def objGet (o : List (String × JsFieldVal)) (k : String) : Option JsFieldVal :=
  (o.find? (fun p => p.1 = k)).map Prod.snd

/-! ## JSON values and `JSON.parse`

A JSON value model and a fuel-indexed parser modelling `JSON.parse` on the
fragment of JSON these components exchange (objects, arrays, strings without
escape sequences, decimal numbers without exponents, booleans, null).
Inputs outside this fragment parse to `none`, which the token pipeline
treats exactly like a `JSON.parse` throw. -/

inductive JsVal where
  | null : JsVal
  | bool : Bool → JsVal
  | num : Rat → JsVal
  | str : String → JsVal
  | arr : List JsVal → JsVal
  | obj : List (String × JsVal) → JsVal

/-- JSON whitespace. -/
def isWsChar (c : Char) : Bool := c == ' ' || c == '\t' || c == '\n' || c == '\r'

/-- Drop leading JSON whitespace. -/
def skipWs : List Char → List Char
  | [] => []
  | c :: cs => if isWsChar c then skipWs cs else c :: cs

/-- Parse the remainder of a JSON string literal after the opening quote;
escape sequences are outside the modelled fragment. -/
def parseStrAux : List Char → List Char → Option (String × List Char)
  | _, [] => none
  | acc, c :: cs =>
    if c = '"' then some (String.mk acc.reverse, cs)
    else if c = '\\' then none
    else parseStrAux (c :: acc) cs

/-- Decimal digit value. -/
def digitVal? (c : Char) : Option Nat :=
  if '0' ≤ c ∧ c ≤ '9' then some (c.toNat - 48) else none

/-- Split off a maximal run of decimal digits. -/
def takeDigits : List Char → (List Nat × List Char)
  | [] => ([], [])
  | c :: cs =>
    match digitVal? c with
    | some d =>
        let (ds, rest) := takeDigits cs
        (d :: ds, rest)
    | none => ([], c :: cs)

/-- Value of a digit run. -/
def digitsToNat (ds : List Nat) : Nat := ds.foldl (fun a d => a * 10 + d) 0

/-- Parse a decimal JSON number (optional minus sign, optional fraction). -/
def parseNumber (cs : List Char) : Option (Rat × List Char) :=
  let (neg, cs1) :=
    match cs with
    | '-' :: rest => (true, rest)
    | _ => (false, cs)
  match takeDigits cs1 with
  | ([], _) => none
  | (ds, rest) =>
    let intPart : Rat := (digitsToNat ds : Nat)
    match rest with
    | '.' :: rest2 =>
      match takeDigits rest2 with
      | ([], _) => none
      | (fs, rest3) =>
        let q : Rat := intPart + (digitsToNat fs : Rat) / ((10 : Rat) ^ fs.length)
        some (if neg then -q else q, rest3)
    | _ => some (if neg then -intPart else intPart, rest)

mutual

/-- Parse one JSON value; the fuel only bounds recursion depth. -/
def parseVal : Nat → List Char → Option (JsVal × List Char)
  | 0, _ => none
  | fuel + 1, cs =>
    match skipWs cs with
    | [] => none
    | c :: rest =>
      if c = 'n' then
        match rest with
        | 'u' :: 'l' :: 'l' :: r => some (.null, r)
        | _ => none
      else if c = 't' then
        match rest with
        | 'r' :: 'u' :: 'e' :: r => some (.bool true, r)
        | _ => none
      else if c = 'f' then
        match rest with
        | 'a' :: 'l' :: 's' :: 'e' :: r => some (.bool false, r)
        | _ => none
      else if c = '"' then
        match parseStrAux [] rest with
        | some (s, r) => some (.str s, r)
        | none => none
      else if c = '[' then
        match skipWs rest with
        | ']' :: r => some (.arr [], r)
        | r2 =>
          match parseElems fuel r2 with
          | some (xs, r) => some (.arr xs, r)
          | none => none
      else if c = '\x7b' then
        match skipWs rest with
        | '\x7d' :: r => some (.obj [], r)
        | r2 =>
          match parseFields fuel r2 with
          | some (fs, r) => some (.obj fs, r)
          | none => none
      else
        match parseNumber (c :: rest) with
        | some (q, r) => some (.num q, r)
        | none => none

/-- Parse a non-empty comma-separated list of values up to `]`. -/
def parseElems : Nat → List Char → Option (List JsVal × List Char)
  | 0, _ => none
  | fuel + 1, cs =>
    match parseVal fuel cs with
    | none => none
    | some (v, r) =>
      match skipWs r with
      | ',' :: r2 =>
        match parseElems fuel r2 with
        | some (vs, r3) => some (v :: vs, r3)
        | none => none
      | ']' :: r2 => some ([v], r2)
      | _ => none

/-- Parse a non-empty comma-separated list of members up to the closing
brace. -/
def parseFields : Nat → List Char → Option (List (String × JsVal) × List Char)
  | 0, _ => none
  | fuel + 1, cs =>
    match skipWs cs with
    | '"' :: r =>
      match parseStrAux [] r with
      | none => none
      | some (k, r2) =>
        match skipWs r2 with
        | ':' :: r3 =>
          match parseVal fuel r3 with
          | none => none
          | some (v, r4) =>
            match skipWs r4 with
            | ',' :: r5 =>
              match parseFields fuel r5 with
              | some (fs, r6) => some ((k, v) :: fs, r6)
              | none => none
            | '\x7d' :: r5 => some ([(k, v)], r5)
            | _ => none
        | _ => none
    | _ => none

end

/-- Model of `JSON.parse` on the fragment above; `none` models a throw. -/
def jsonParse (s : String) : Option JsVal :=
  match parseVal (2 * s.data.length + 2) s.data with
  | some (v, r) => if skipWs r = [] then some v else none
  | none => none

/-- JavaScript property read `v[k]`: throws (`.error`) on `null`, yields the
property (last duplicate wins, as in objects built by `JSON.parse`) on
objects, and `undefined` (`.ok none`) on other primitives, which carry no
`exp`/`id`/`tenantId`-like own properties. -/
def jsGetProp : JsVal → String → Except Unit (Option JsVal)
  | .null, _ => .error ()
  | .obj fields, k => .ok ((fields.reverse.find? (fun p => p.1 = k)).map Prod.snd)
  | _, _ => .ok none

/-- JavaScript `Number(string)` coercion on the decimal fragment; `none`
models `NaN` (hex literals and exponents, never produced by a JWT `exp`
claim, also map to `none`). -/
def strToNumber (s : String) : Option Rat :=
  let cs := skipWs s.data
  let cs2 := (skipWs cs.reverse).reverse
  if cs2 = [] then some 0
  else
    match parseNumber cs2 with
    | some (q, []) => some q
    | _ => none

/-- JavaScript numeric coercion of a possibly-`undefined` value, as performed
by the `<` and `-` operators: `undefined` gives `NaN` (`none`); array and
object `ToPrimitive` corner cases, which no token payload here exercises,
are also modelled as `NaN`. -/
def jsToNumber : Option JsVal → Option Rat
  | none => none
  | some .null => some 0
  | some (.bool b) => some (if b then 1 else 0)
  | some (.num q) => some q
  | some (.str s) => strToNumber s
  | some (.arr _) => none
  | some (.obj _) => none

/-- JavaScript `x < now`: `false` whenever the coercion of `x` is `NaN`
(in particular for `undefined`). -/
def jsLtNum (x : Option JsVal) (now : Rat) : Bool :=
  match jsToNumber x with
  | none => false
  | some q => decide (q < now)

/-! ## `atob` and the token expiry checks

`atob` implements forgiving base64 decoding: strip ASCII whitespace, strip
up to two trailing `=` when the length is a multiple of four, fail when the
remaining length is `1 mod 4` or any character is outside the alphabet. -/

/-- ASCII whitespace stripped by forgiving base64. -/
def isB64Ws (c : Char) : Bool :=
  c == '\t' || c == '\n' || c == '\x0c' || c == '\r' || c == ' '

/-- Strip up to two trailing padding characters when the length allows it. -/
def dropTrailingEqs (cs : List Char) : List Char :=
  if cs.length % 4 = 0 then
    match cs.reverse with
    | '=' :: '=' :: rest => rest.reverse
    | '=' :: rest => rest.reverse
    | _ => cs
  else cs

/-- Browser/edge `atob`; `none` models the `InvalidCharacterError` throw.
The decoded bytes are returned as a latin-1 string. -/
def atob (s : String) : Option String :=
  let cs := s.data.filter (fun c => !(isB64Ws c))
  let cs2 := dropTrailingEqs cs
  if cs2.length % 4 = 1 then none
  else if cs2.all (fun c => (sextet? c).isSome) then
    some (String.mk ((sextetsToBytes (cs2.filterMap sextet?)).map Char.ofNat))
  else none

/-- JavaScript `token.split('.')` on the underlying characters. -/
def splitDotAux : List Char → List Char → List (List Char)
  | [], acc => [acc.reverse]
  | c :: cs, acc =>
      if c = '.' then acc.reverse :: splitDotAux cs [] else splitDotAux cs (c :: acc)

/-- The middle JWT segment `token.split('.')[1]`; when the index is out of
range the JavaScript expression is `undefined`, which `atob` coerces to the
string `"undefined"`. -/
def jwtPayloadSeg (token : String) : String :=
  String.mk ((splitDotAux token.data []).getD 1 "undefined".data)

/-- `isTokenExpired` as implemented identically in `middleware.ts` and in
`ApiClient`: decode the payload segment, parse it, and compare
`payload.exp < now` (`now` being `Date.now() / 1000`); any throw in the
pipeline is caught and yields `true`. -/
def isTokenExpired (now : Rat) (token : String) : Bool :=
  match atob (jwtPayloadSeg token) with
  | none => true
  | some payload =>
    match jsonParse payload with
    | none => true
    | some v =>
      match jsGetProp v "exp" with
      | .error _ => true
      | .ok expV => jsLtNum expV now

/-- `isTokenNearExpiry` from `middleware.ts`: `payload.exp - now < 300`
with the same catch-all, except that an `undefined` `exp` makes the
subtraction `NaN` and the comparison `false`. -/
def isTokenNearExpiry (now : Rat) (token : String) : Bool :=
  match atob (jwtPayloadSeg token) with
  | none => true
  | some payload =>
    match jsonParse payload with
    | none => true
    | some v =>
      match jsGetProp v "exp" with
      | .error _ => true
      | .ok expV =>
        match jsToNumber expV with
        | none => false
        | some q => decide (q - now < 300)

/-! ## Edge routing middleware (`middleware.ts`)

Per-request model.  The awaited network refresh (`refreshTokens`) is
represented by its outcome `refreshResult`; the fire-and-forget proactive
refresh near the end of the source alters no cookie and no header of the
current response and is therefore not part of the per-request outcome. -/

/-- The inputs `middleware` reads from a request. -/
structure MwRequest where
  pathname : String
  cookieAccess : Option String
  cookieRefresh : Option String
  cookieUser : Option String
  headerAuthorization : Option String
deriving DecidableEq

/-- Outcome of the middleware: continue (`NextResponse.next()`) or redirect,
each carrying the cookies it sets / deletes and, for `next`, the response
headers it adds. -/
inductive MwResponse where
  | next : List (String × String) → List String → List (String × String) → MwResponse
  | redirect : String → List String → MwResponse
deriving DecidableEq

/-- The three identity cookie names cleared together. -/
def identityCookies : List String :=
  ["cloudlens_access_token", "cloudlens_refresh_token", "cloudlens_user"]

/-- JavaScript `String.prototype.replace(pat, '')`: remove the first
occurrence of `pat`. -/
def removeFirstOcc (pat : List Char) : List Char → List Char
  | [] => []
  | c :: cs =>
      if pat.isPrefixOf (c :: cs) then (c :: cs).drop pat.length
      else c :: removeFirstOcc pat cs

/-- `header.replace('Bearer ', '')` from the access-token extraction. -/
def stripBearer (h : String) : String :=
  String.mk (removeFirstOcc "Bearer ".data h.data)

/-- JavaScript `a || b` on possibly-absent strings: an empty string is falsy. -/
def jsOrStr (a b : Option String) : Option String :=
  match a with
  | some v => if v = "" then b else some v
  | none => b

/-- JavaScript truthiness of a possibly-absent string. -/
def strTruthy : Option String → Bool
  | none => false
  | some s => s != ""

/-- JavaScript truthiness of a JSON value. -/
def jsTruthy : JsVal → Bool
  | .null => false
  | .bool b => b
  | .num q => q != 0
  | .str s => s != ""
  | .arr _ => true
  | .obj _ => true

/-- Truthiness of `userData`-like possibly-null values. -/
def optTruthy : Option JsVal → Bool
  | none => false
  | some v => jsTruthy v

/-- Optional chaining `v?.k`: `undefined` on absent/null receivers, property
lookup on objects, `undefined` on other primitives. -/
def jsOptProp (v : Option JsVal) (k : String) : Option JsVal :=
  match v with
  | none => none
  | some .null => none
  | some (.obj fields) => (fields.reverse.find? (fun p => p.1 = k)).map Prod.snd
  | some _ => none

/-- Value of `v?.k || ''` as used for the identity headers: the property when
it is a non-empty string, `''` otherwise (non-string ids do not occur in the
stored profile). -/
def strOfProp (v : Option JsVal) (k : String) : String :=
  match jsOptProp v k with
  | some (.str s) => s
  | _ => ""

/-- Route tables from the top of `middleware.ts`. -/
def publicRoutes : List String :=
  ["/signin", "/signup", "/forgot-password", "/reset-password"]

/-- Auth-only routes. -/
def authRoutes : List String := ["/signin", "/signup"]

/-- Protected routes. -/
def protectedRoutes : List String := ["/dashboard", "/scans", "/settings", "/profile"]

/-- The skip class at the top of `middleware`: static assets, the API
prefix, file-extension paths. -/
def mwSkip (pathname : String) : Bool :=
  "/_next/".data.isPrefixOf pathname.data || "/api/".data.isPrefixOf pathname.data ||
    pathname.data.contains '.'

/-- The `middleware` function from `middleware.ts`.  `now` is
`Date.now() / 1000`; `refreshResult` is the outcome of the awaited
`refreshTokens(refreshToken)` network call, `none` meaning a non-2xx
response or a network failure. -/
def middleware (now : Rat) (refreshResult : Option (String × String))
    (req : MwRequest) : MwResponse :=
  if mwSkip req.pathname then .next [] [] []
  else
    let accessToken :=
      jsOrStr req.cookieAccess (req.headerAuthorization.map stripBearer)
    let refreshToken := req.cookieRefresh
    let userData : Option JsVal :=
      match req.cookieUser with
      | some s => if s = "" then none else jsonParse s
      | none => none
    let isAuthenticated :=
      match accessToken with
      | some s => s != "" && !(isTokenExpired now s)
      | none => false
    let hasValidRefreshToken :=
      match refreshToken with
      | some s => s != "" && !(isTokenExpired now s)
      | none => false
    if !isAuthenticated && hasValidRefreshToken then
      match refreshResult with
      | some (a, r) =>
          .next [("cloudlens_access_token", a), ("cloudlens_refresh_token", r)] [] []
      | none => .redirect "/signin" identityCookies
    else
      let accessExpiredUnrefreshable :=
        (match accessToken with
         | some s => s != "" && isTokenExpired now s
         | none => false) &&
        (match refreshToken with
         | some s => s == "" || isTokenExpired now s
         | none => true)
      if accessExpiredUnrefreshable then
        if req.pathname = "/signin" then .next [] identityCookies []
        else .redirect "/signin" identityCookies
      else if isAuthenticated && authRoutes.contains req.pathname then
        .redirect
          (if optTruthy (jsOptProp userData "onboardingCompleted") then "/dashboard"
           else "/onboarding") []
      else if !isAuthenticated &&
          (protectedRoutes.contains req.pathname ||
            "/dashboard".data.isPrefixOf req.pathname.data) then
        .redirect "/signin" []
      else if isAuthenticated && optTruthy userData &&
          (!(optTruthy (jsOptProp userData "onboardingCompleted")) &&
            req.pathname ≠ "/onboarding" && !(publicRoutes.contains req.pathname)) then
        .redirect "/onboarding" []
      else if isAuthenticated && optTruthy userData &&
          optTruthy (jsOptProp userData "onboardingCompleted") &&
          req.pathname = "/onboarding" then
        .redirect "/dashboard" []
      else if isAuthenticated && strTruthy accessToken then
        .next [] []
          [("x-user-id", strOfProp userData "id"),
           ("x-tenant-id", strOfProp userData "tenantId")]
      else .next [] [] []

/-! ## Tenant-scoped API client (`ApiClient`)

State-passing model of the client: `LocalStorage` is the durable client
store, a fetch is the consumption of the next stubbed `FetchResp`, and the
URLs of the fetches performed are accumulated in order.  A thrown JavaScript
exception reaching the caller is `Except.error`. -/

/-- The three `localStorage` slots the client uses. -/
structure LocalStorage where
  access : Option String
  refresh : Option String
  user : Option String
deriving DecidableEq

/-- One stubbed backend response: `ok` is `response.ok`, `status` is the
HTTP status, `body` the JSON payload `response.json()` resolves to. -/
structure FetchResp where
  ok : Bool
  status : Nat
  body : JsVal

/-- `ApiClient.clearAuthData`: remove all three identity keys. -/
def clearAuthData (_ : LocalStorage) : LocalStorage := ⟨none, none, none⟩

/-- String coercion applied by `localStorage.setItem` / cookie
interpolation to a possibly-`undefined` value (array elements are joined by
`String(...)`; no stored payload here is an array). -/
def jsSetItemString : Option JsVal → String
  | none => "undefined"
  | some .null => "null"
  | some (.bool true) => "true"
  | some (.bool false) => "false"
  | some (.num q) =>
      if q.den = 1 then toString q.num else toString q.num ++ "/" ++ toString q.den
  | some (.str s) => s
  | some (.arr _) => ""
  | some (.obj _) => "[object Object]"

mutual

/-- `JSON.stringify` on the modelled fragment (string escaping is not needed
by any payload considered here). -/
def jsStringify : JsVal → String
  | .null => "null"
  | .bool true => "true"
  | .bool false => "false"
  | .num q =>
      if q.den = 1 then toString q.num else toString q.num ++ "/" ++ toString q.den
  | .str s => "\"" ++ s ++ "\""
  | .arr xs => "[" ++ jsStringifyList xs ++ "]"
  | .obj fs => "\x7b" ++ jsStringifyFields fs ++ "\x7d"

/-- Comma-joined serialisation of array elements. -/
def jsStringifyList : List JsVal → String
  | [] => ""
  | [x] => jsStringify x
  | x :: xs => jsStringify x ++ "," ++ jsStringifyList xs

/-- Comma-joined serialisation of object members. -/
def jsStringifyFields : List (String × JsVal) → String
  | [] => ""
  | [(k, v)] => "\"" ++ k ++ "\":" ++ jsStringify v
  | (k, v) :: fs => "\"" ++ k ++ "\":" ++ jsStringify v ++ "," ++ jsStringifyFields fs

end

/-- Result of a refresh step: whether it succeeded, the store, the backend
responses not yet consumed, and the fetch URLs performed so far. -/
structure StepOut where
  refreshed : Bool
  store : LocalStorage
  resps : List FetchResp
  calls : List String

/-- `ApiClient.refreshAccessToken`: fail (clearing the store) without a
network call when the refresh token is absent/empty/expired; otherwise POST
`/auth/refresh` and, on `response.ok`, write both new tokens via
`updateTokens` (and the user payload when present); on a non-ok response, a
network failure, or a `null` JSON body (whose property access throws into
the catch), clear the store and report failure. -/
def refreshAccessToken (now : Rat) (st : LocalStorage) (resps : List FetchResp)
    (calls : List String) : StepOut :=
  match st.refresh with
  | none => ⟨false, clearAuthData st, resps, calls⟩
  | some r =>
    if r = "" then ⟨false, clearAuthData st, resps, calls⟩
    else if isTokenExpired now r then ⟨false, clearAuthData st, resps, calls⟩
    else
      match resps with
      | [] => ⟨false, clearAuthData st, [], calls ++ ["/auth/refresh"]⟩
      | resp :: rest =>
        let calls := calls ++ ["/auth/refresh"]
        if resp.ok then
          match jsGetProp resp.body "access_token", jsGetProp resp.body "refresh_token",
              jsGetProp resp.body "user" with
          | .ok a, .ok r2, .ok u =>
              let st1 : LocalStorage :=
                { st with access := some (jsSetItemString a),
                          refresh := some (jsSetItemString r2) }
              let st2 :=
                match u with
                | some uv =>
                    if jsTruthy uv then { st1 with user := some (jsStringify uv) } else st1
                | none => st1
              ⟨true, st2, rest, calls⟩
          | _, _, _ => ⟨false, clearAuthData st, rest, calls⟩
        else ⟨false, clearAuthData st, rest, calls⟩

/-- Headers attached to a request; only presence and token content matter to
the claims. -/
structure ReqHeaders where
  auth : Option String
  xUserId : Option String
  xTenantId : Option String
deriving DecidableEq

/-- `ApiClient.getHeaders`: read the store, refresh first when the stored
access token is present and expired, then build the `Authorization` and
tenant-context headers. -/
def getHeadersM (now : Rat) (st : LocalStorage) (resps : List FetchResp)
    (calls : List String) : ReqHeaders × LocalStorage × List FetchResp × List String :=
  let userData : Option JsVal :=
    match st.user with
    | some s => jsonParse s
    | none => none
  let (tok, st1, resps1, calls1) :=
    match st.access with
    | some a =>
        if a ≠ "" ∧ isTokenExpired now a then
          let out := refreshAccessToken now st resps calls
          if out.refreshed then (out.store.access, out.store, out.resps, out.calls)
          else ((none : Option String), out.store, out.resps, out.calls)
        else (some a, st, resps, calls)
    | none => (none, st, resps, calls)
  let auth :=
    match tok with
    | some t => if t = "" then none else some ("Bearer " ++ t)
    | none => none
  let (xu, xt) :=
    if optTruthy userData then
      (some (strOfProp userData "id"), some (strOfProp userData "tenantId"))
    else (none, none)
  (⟨auth, xu, xt⟩, st1, resps1, calls1)

/-- Structured result of a request, `{success, data?, error?}`. -/
structure ApiResponse where
  success : Bool
  data : Option JsVal
  error : Option JsVal

/-- First truthy of a `||` chain, with a default. -/
def firstTruthy : List (Option JsVal) → JsVal → JsVal
  | [], dflt => dflt
  | some v :: rest, dflt => if jsTruthy v then v else firstTruthy rest dflt
  | none :: rest, dflt => firstTruthy rest dflt

/-- `responseData.detail || responseData.message || 'Request failed'`. -/
def jsErrMsg (body : JsVal) : JsVal :=
  firstTruthy [jsOptProp (some body) "detail", jsOptProp (some body) "message"]
    (.str "Request failed")

/-- Complete outcome of one `ApiClient.request` call: the value returned to
the caller (or the exception thrown to it), the final store, the fetch URLs
performed in order, and whether `window.location.href = '/signin'` fired. -/
structure ReqOutcome where
  result : Except String ApiResponse
  store : LocalStorage
  calls : List String
  navSignin : Bool

/-- `ApiClient.request` (the `method`/body arguments shape only the payload,
not the control flow modelled here).  With `requireAuth` and no stored
access token it throws `Error('Authentication required')` before any network
activity; otherwise it sends the request, and on a 401 with `requireAuth` it
performs exactly one refresh and, when that succeeds, one retry; a second
401 (or any non-ok retry) falls through to clearing the store, navigating to
`/signin`, and returning the structured failure built from the first 401
body; fetch rejections resolve to a structured network-error result. -/
def request (now : Rat) (url : String) (requireAuth : Bool) (st : LocalStorage)
    (resps : List FetchResp) : ReqOutcome :=
  if requireAuth ∧ ¬ strTruthy st.access then
    ⟨.error "Authentication required", st, [], false⟩
  else
    let (_, st1, resps1, calls1) := getHeadersM now st resps []
    match resps1 with
    | [] => ⟨.ok ⟨false, none, some (.str "Network error")⟩, st1, calls1 ++ [url], false⟩
    | resp :: rest1 =>
      let calls := calls1 ++ [url]
      if resp.ok then ⟨.ok ⟨true, some resp.body, none⟩, st1, calls, false⟩
      else if resp.status = 401 then
        if requireAuth then
          let r := refreshAccessToken now st1 rest1 calls
          if r.refreshed then
            let (_, st2, resps2, calls2) := getHeadersM now r.store r.resps r.calls
            match resps2 with
            | [] =>
                ⟨.ok ⟨false, none, some (.str "Network error")⟩, st2,
                  calls2 ++ [url], false⟩
            | retryResp :: _ =>
              let calls3 := calls2 ++ [url]
              if retryResp.ok then
                ⟨.ok ⟨true, some retryResp.body, none⟩, st2, calls3, false⟩
              else
                ⟨.ok ⟨false, some resp.body, some (jsErrMsg resp.body)⟩,
                  clearAuthData st2, calls3, true⟩
          else
            ⟨.ok ⟨false, some resp.body, some (jsErrMsg resp.body)⟩,
              clearAuthData r.store, r.calls, true⟩
        else
          ⟨.ok ⟨false, some resp.body, some (jsErrMsg resp.body)⟩,
            clearAuthData st1, calls, true⟩
      else
        ⟨.ok ⟨false, some resp.body, some (jsErrMsg resp.body)⟩, st1, calls, false⟩

/-! ## Auth context storage (`storeAuthData` and friends)

The auth context writes identity state to both `localStorage` and a cookie
channel; `BrowserState` carries both. -/

/-- Set a cookie by name (later duplicate wins on read). -/
def setCookieStore (cookies : List (String × String)) (name value : String) :
    List (String × String) :=
  (cookies.filter (fun p => p.1 ≠ name)) ++ [(name, value)]

/-- Read a cookie by name. -/
def cookieGet (cookies : List (String × String)) (name : String) : Option String :=
  (cookies.find? (fun p => p.1 = name)).map Prod.snd

/-- Browser-visible identity state: the durable client store plus the
cookie channel the middleware reads. -/
structure BrowserState where
  ls : LocalStorage
  cookies : List (String × String)

/-- The snake-case / camelCase field pairs `transformUserData` normalises. -/
def camelPairs : List (String × String) :=
  [("onboarding_completed", "onboardingCompleted"), ("first_name", "firstName"),
   ("last_name", "lastName"), ("is_active", "isActive"),
   ("is_verified", "isVerified"), ("created_at", "createdAt"),
   ("updated_at", "updatedAt"), ("last_login", "lastLogin"),
   ("tenant_id", "tenantId")]

/-- `userData.snake ?? userData.camel` (nullish coalescing: `null` as well as
`undefined` falls through). -/
def nvlProp (u : JsVal) (snake camel : String) : Option JsVal :=
  match jsOptProp (some u) snake with
  | some .null | none => jsOptProp (some u) camel
  | some v => some v

/-- `transformUserData` from the auth context: spread the backend object and
overwrite the camelCase fields with `snake ?? camel`; keys whose value comes
out `undefined` are dropped, as `JSON.stringify` drops them from the stored
artifact.  Property access on `null` throws. -/
def transformUserData : JsVal → Except Unit JsVal
  | .null => .error ()
  | .obj fields =>
      .ok (.obj (fields ++ camelPairs.filterMap (fun p =>
        (nvlProp (.obj fields) p.1 p.2).map (fun v => (p.2, v)))))
  | _ => .ok (.obj [])

/-- `storeAuthData` from the auth context: destructure
`{access_token, refresh_token, user}`, transform the user, then write all
three values to `localStorage` *and* to same-named cookies.  A `null`
payload or missing user makes the destructuring / transformation throw
(`.error`), as in the source. -/
def storeAuthData (s : BrowserState) (authData : JsVal) : Except Unit BrowserState :=
  match jsGetProp authData "access_token", jsGetProp authData "refresh_token",
      jsGetProp authData "user" with
  | .ok a, .ok r, .ok u =>
    match u with
    | none => .error ()
    | some uv =>
      match transformUserData uv with
      | .error _ => .error ()
      | .ok tu =>
        let aStr := jsSetItemString a
        let rStr := jsSetItemString r
        let uStr := jsStringify tu
        .ok
          { ls := { access := some aStr, refresh := some rStr, user := some uStr },
            cookies :=
              setCookieStore
                (setCookieStore
                  (setCookieStore s.cookies "cloudlens_access_token" aStr)
                  "cloudlens_refresh_token" rStr)
                "cloudlens_user" uStr }
  | _, _, _ => .error ()

/-- `ApiClient.refreshAccessToken` lifted to the full browser state: the
method's source reads and writes `localStorage` only — no statement in it
touches `document.cookie` — so the cookie channel passes through unchanged. -/
def apiClientRefreshBrowser (now : Rat) (s : BrowserState) (resps : List FetchResp) :
    Bool × BrowserState × List FetchResp × List String :=
  let out := refreshAccessToken now s.ls resps []
  (out.refreshed, { ls := out.store, cookies := s.cookies }, out.resps, out.calls)

/-! # Claim theorems -/

/-- C1: for every non-empty plaintext `p` (represented by its UTF-8 bytes)
and every well-formed keyed 16-byte block permutation `E` with inverse `D`
(the externally supplied AES-256 primitive under the shared key), decrypting
the result of encrypting `p` returns `p`: `decrypt (encrypt p) = ok p`. -/
theorem encrypt_decrypt_roundtrip
    (E D : List Nat → List Nat) (hE : BlockFun E)
    (hD : ∀ b : List Nat, b.length = 16 → (∀ x ∈ b, x < 256) → D (E b) = b)
    (p iv : List Nat) (hp : p ≠ []) (hp256 : ∀ x ∈ p, x < 256)
    (hiv : iv.length = 16) (hiv256 : ∀ x ∈ iv, x < 256) :
    decrypt D (encrypt E iv p) = .ok p := by
  have hpadmod := pkcs7Pad_length_mod p
  have hpadne := pkcs7Pad_ne_nil p
  have hpad256 : ∀ x ∈ pkcs7Pad p, x < 256 := by
    intro x hx
    rcases List.mem_append.mp hx with hx | hx
    · exact hp256 x hx
    · have hrep := List.eq_of_mem_replicate hx
      have hle := padLen_le p.length
      omega
  obtain ⟨hclen, hc256⟩ := cbcE_length E hE (pkcs7Pad p) iv hpadmod hiv hpad256 hiv256
  set c := cbcE E iv (pkcs7Pad p) with hcdef
  have hcombined256 : ∀ x ∈ iv ++ c, x < 256 := by
    intro x hx
    rcases List.mem_append.mp hx with hx | hx
    · exact hiv256 x hx
    · exact hc256 x hx
  have hlen_pad_pos : 0 < (pkcs7Pad p).length := List.length_pos.mpr hpadne
  have hivc_ne : iv ++ c ≠ [] := by
    intro hcon
    have hl := congrArg List.length hcon
    simp [hiv] at hl
  unfold encrypt
  rw [if_neg hp]
  have hb64ne : b64E (iv ++ c) ≠ [] := b64E_ne_nil _ hivc_ne
  have hsne : String.mk (b64E (iv ++ c)) ≠ "" := by
    intro hcon
    have hdat : b64E (iv ++ c) = [] := congrArg String.data hcon
    exact hb64ne hdat
  have hdecode : b64D (String.mk (b64E (iv ++ c))).data = iv ++ c :=
    b64D_b64E _ hcombined256
  have hcomblen : (iv ++ c).length = 16 + (pkcs7Pad p).length := by
    simp [hiv, hclen]
  have htake : (iv ++ c).take 16 = iv := by rw [← hiv, List.take_left]
  have hdrop : (iv ++ c).drop 16 = c := by rw [← hiv, List.drop_left]
  simp only [decrypt, if_neg hsne, hdecode, htake, hdrop]
  rw [if_neg (by omega : ¬ (iv ++ c).length < 16)]
  rw [if_neg ?hcond]
  case hcond =>
    push_neg
    constructor
    · rw [hclen]; omega
    · rw [hclen]; omega
  rw [hcdef, cbcD_cbcE E D hE hD (pkcs7Pad p) iv hpadmod hiv hpad256 hiv256,
    pkcs7Unpad_pad]

/-- C1 witness: a concrete run of the round trip with the identity block
permutation, the plaintext bytes of `"Hi"`, and a zero IV. -/
theorem encrypt_decrypt_roundtrip_witness :
    decrypt id (encrypt id (List.replicate 16 0) [72, 105]) = .ok [72, 105] :=
  encrypt_decrypt_roundtrip id id
    (fun b hb h256 => ⟨hb, h256⟩) (fun _ _ _ => rfl)
    [72, 105] (List.replicate 16 0) (by decide) (by decide) (by decide) (by decide)

/-- C7: for every non-empty ciphertext whose base64-decoded blob is shorter
than 16 bytes, or whose ciphertext body fails the PKCS padding check after
CBC decryption under the configured key, `decrypt` throws (returns an
`error`) rather than returning any string. -/
theorem decrypt_rejects_corrupt (D : List Nat → List Nat) (s : String)
    (hne : s ≠ "")
    (hbad : (b64D s.data).length < 16 ∨
      (((b64D s.data).drop 16) ≠ [] ∧ ((b64D s.data).drop 16).length % 16 = 0 ∧
        pkcs7Unpad (cbcD D ((b64D s.data).take 16) ((b64D s.data).drop 16)) = none)) :
    ∃ e, decrypt D s = .error e := by
  rcases hbad with h | ⟨h1, h2, h3⟩
  · refine ⟨"Failed to decrypt data: Invalid initialization vector", ?_⟩
    simp only [decrypt, if_neg hne]
    rw [if_pos h]
  · have h16 : ¬ (b64D s.data).length < 16 := by
      intro hlt
      apply h1
      rw [List.drop_eq_nil_iff]
      omega
    have h0 : (b64D s.data).drop 16 ≠ [] → ((b64D s.data).drop 16).length ≠ 0 := by
      intro hne0 hcon
      exact hne0 (List.length_eq_zero.mp hcon)
    refine ⟨"Failed to decrypt data: bad decrypt", ?_⟩
    simp only [decrypt, if_neg hne]
    rw [if_neg h16, if_neg (by push_neg; exact ⟨h0 h1, h2⟩), h3]

/-- C7 witness: the four-character ciphertext `"AAAA"` decodes to three
bytes, fewer than the 16 an IV requires, and decryption throws. -/
theorem decrypt_rejects_corrupt_witness : ∃ e, decrypt id "AAAA" = .error e :=
  decrypt_rejects_corrupt id "AAAA" (by decide) (Or.inl (by decide))

/-- C3 counterexample: the token `"h.e30=.s"` has a payload segment that
base64-decodes to `{}` and parses to an object with no `exp` field, yet
`isTokenExpired` returns `false` — the claim says such a token is treated
as expired. -/
theorem isTokenExpired_missing_exp_counterexample :
    (atob (jwtPayloadSeg "h.e30=.s")).bind jsonParse = some (JsVal.obj []) ∧
    isTokenExpired 1000 "h.e30=.s" = false :=
  ⟨rfl, by decide⟩

/-- C3 amended: a token whose payload is unparsable is treated as expired
(fail-closed), but a token whose payload parses to a value carrying no `exp`
property is treated as NOT expired: the JavaScript comparison
`undefined < now` is `false`. -/
theorem isTokenExpired_failClosed (now : Rat) (token : String) :
    ((atob (jwtPayloadSeg token)).bind jsonParse = none →
      isTokenExpired now token = true) ∧
    (∀ v, (atob (jwtPayloadSeg token)).bind jsonParse = some v →
      jsGetProp v "exp" = .ok none → isTokenExpired now token = false) := by
  constructor
  · intro h
    unfold isTokenExpired
    cases ha : atob (jwtPayloadSeg token) with
    | none => rfl
    | some payload =>
        rw [ha] at h
        simp only [Option.bind] at h
        simp only [h]
  · intro v hv hexp
    unfold isTokenExpired
    cases ha : atob (jwtPayloadSeg token) with
    | none => rw [ha] at hv; simp at hv
    | some payload =>
        rw [ha] at hv
        simp only [Option.bind] at hv
        simp only [hv, hexp]
        rfl

/-- C3 witness: concrete instances of both halves — a token with no dot is
unparsable hence expired, and a token with an empty-object payload is not
expired. -/
theorem isTokenExpired_failClosed_witness :
    isTokenExpired 5 "zz" = true ∧ isTokenExpired 1000 "x.e30=.y" = false :=
  ⟨(isTokenExpired_failClosed 5 "zz").1 rfl,
   (isTokenExpired_failClosed 1000 "x.e30=.y").2 (JsVal.obj []) rfl rfl⟩

/-- C9 counterexample: a 20-code-unit secret of `é` (U+00E9) characters is
shorter than 32, gets padded to 32 code units, and its UTF-8 key has 52
bytes — not the 32 bytes the claim promises for every secret. -/
theorem prepareKey_counterexample :
    (prepareKey (List.replicate 20 233)).length ≠ 32 ∧
    (prepareKey (List.replicate 20 233)).length = 52 := by
  constructor <;> decide

/-- C9 amended: for secrets made of ASCII code units (one UTF-8 byte each)
the prepared key is exactly 32 bytes: the first 32 bytes of the secret when
it is at least 32 long, otherwise the secret right-padded with the filler
byte 48 (`'0'`). -/
theorem prepareKey_ascii (key : List Nat) (h : ∀ u ∈ key, u < 128) :
    prepareKey key =
      (if key.length < 32 then key ++ List.replicate (32 - key.length) 48
       else key.take 32) ∧
    (prepareKey key).length = 32 := by
  have hascii : ∀ l : List Nat, (∀ u ∈ l, u < 128) → utf8EncodeUnits l = l := by
    intro l
    induction l using utf8EncodeUnits.induct with
    | case1 => intro _; rfl
    | case2 u =>
        intro hl
        have hu : u < 128 := hl u (by simp)
        simp only [utf8EncodeUnits, utf8One]
        rw [if_pos hu]
    | case3 u r rest hcond ih =>
        intro hl
        have hu : u < 128 := hl u (by simp)
        exact absurd hcond (by omega)
    | case4 u r rest hcond ih =>
        intro hl
        have hu : u < 128 := hl u (by simp)
        simp only [utf8EncodeUnits, if_neg hcond, utf8One, if_pos hu]
        have := ih (fun z hz => hl z (by simp at hz ⊢; tauto))
        simp [this]
  by_cases hlt : key.length < 32
  · have hall : ∀ u ∈ key ++ List.replicate (32 - key.length) 48, u < 128 := by
      intro u hu
      rcases List.mem_append.mp hu with hu | hu
      · exact h u hu
      · have := List.eq_of_mem_replicate hu
        omega
    constructor
    · simp only [prepareKey, if_pos hlt]
      rw [hascii _ hall]
    · simp only [prepareKey, if_pos hlt]
      rw [hascii _ hall]
      simp
      omega
  · have htk : ∀ u ∈ key.take 32, u < 128 :=
      fun u hu => h u (List.mem_of_mem_take hu)
    by_cases hgt : key.length > 32
    · constructor
      · simp only [prepareKey, if_neg hlt, if_pos hgt]
        rw [hascii _ htk]
      · simp only [prepareKey, if_neg hlt, if_pos hgt]
        rw [hascii _ htk]
        simp
        omega
    · have heq : key.length = 32 := by omega
      constructor
      · simp only [prepareKey, if_neg hlt, if_neg hgt]
        rw [hascii _ h, List.take_of_length_le (by omega)]
      · simp only [prepareKey, if_neg hlt, if_neg hgt]
        rw [hascii _ h]
        exact heq

/-- C9 witness: the ASCII secret `"sec"` is padded with 29 filler bytes to a
32-byte key. -/
theorem prepareKey_ascii_witness :
    prepareKey [115, 101, 99] = [115, 101, 99] ++ List.replicate 29 48 ∧
    (prepareKey [115, 101, 99]).length = 32 := by
  constructor
  · rw [(prepareKey_ascii [115, 101, 99] (by decide)).1]
    decide
  · exact (prepareKey_ascii [115, 101, 99] (by decide)).2

/-- C4 counterexample: with no session token supplied the returned object
still owns the `encrypted_aws_session_token` key (bound to `undefined`),
so the key IS present on the object, contrary to the claim. -/
theorem encryptAWSCredentials_key_present_counterexample :
    "encrypted_aws_session_token" ∈
      ownKeys (encryptAWSCredentials id (List.replicate 16 0) (List.replicate 16 0)
        (List.replicate 16 0) [65] [66] none) := by
  simp [encryptAWSCredentials, ownKeys]

/-- C4 amended: with no session token the `encrypted_aws_session_token` key
is present but bound to `undefined` (never an encrypted empty string), and
it is dropped from the JSON serialisation actually sent to the backend. -/
theorem encryptAWSCredentials_sessionToken_undef
    (E : List Nat → List Nat) (ivA ivS ivT accessKey secretKey : List Nat) :
    objGet (encryptAWSCredentials E ivA ivS ivT accessKey secretKey none)
        "encrypted_aws_session_token" = some .undef ∧
    "encrypted_aws_session_token" ∉
      jsonKeys (encryptAWSCredentials E ivA ivS ivT accessKey secretKey none) := by
  constructor
  · rfl
  · simp [encryptAWSCredentials, jsonKeys]

/-- C2 counterexample: with `requireAuth` and no stored access token,
`request` rejects with a thrown `Error('Authentication required')` — an
exception to the caller, not the structured failure result the claim
promises (it does make no network call). -/
theorem request_noToken_counterexample :
    (request 0 "/api/scan" true ⟨none, none, none⟩ []).result
        = Except.error "Authentication required" ∧
    (request 0 "/api/scan" true ⟨none, none, none⟩ []).calls = [] :=
  ⟨rfl, rfl⟩

/-- C2 amended: with `requireAuth` and no (or an empty) stored access token,
`request` fails immediately by throwing `Error('Authentication required')`,
performing no network call, no state change, and no navigation. -/
theorem request_noToken_throws (now : Rat) (url : String) (st : LocalStorage)
    (resps : List FetchResp) (h : st.access = none ∨ st.access = some "") :
    request now url true st resps =
      ⟨Except.error "Authentication required", st, [], false⟩ := by
  unfold request
  rw [if_pos ⟨rfl, by rcases h with h | h <;> simp [strTruthy, h]⟩]

/-- C2 witness: a concrete throwing run on an empty store. -/
theorem request_noToken_throws_witness :
    request 5 "/auth/me" true ⟨none, some "r", some "u"⟩ [] =
      ⟨Except.error "Authentication required", ⟨none, some "r", some "u"⟩, [], false⟩ :=
  request_noToken_throws 5 "/auth/me" ⟨none, some "r", some "u"⟩ [] (Or.inl rfl)

/-- Helper: `getHeaders` with no stored access token leaves state untouched
and performs no fetch. -/
theorem getHeadersM_noToken (now : Rat) (st : LocalStorage)
    (resps : List FetchResp) (calls : List String) (hA : st.access = none) :
    ∃ h, getHeadersM now st resps calls = (h, st, resps, calls) := by
  unfold getHeadersM
  simp only [hA]
  exact ⟨_, rfl⟩

/-- Helper: `getHeaders` with a present, unexpired access token leaves state
untouched and performs no fetch. -/
theorem getHeadersM_fresh (now : Rat) (st : LocalStorage)
    (resps : List FetchResp) (calls : List String) (a : String)
    (hA : st.access = some a) (hexp : isTokenExpired now a = false) :
    ∃ h, getHeadersM now st resps calls = (h, st, resps, calls) := by
  unfold getHeadersM
  simp only [hA]
  rw [if_neg (by simp [hexp])]
  exact ⟨_, rfl⟩

/-- Helper: a refresh with a valid refresh token consuming an `ok` response
carrying a fresh token pair (and no user payload) stores exactly that pair. -/
theorem refreshAccessToken_fetch_ok (now : Rat) (st : LocalStorage)
    (calls : List String) (r a2 r2 : String) (rest : List FetchResp)
    (hR : st.refresh = some r) (hrT : r ≠ "") (hrOK : isTokenExpired now r = false) :
    refreshAccessToken now st
        (⟨true, 200, .obj [("access_token", .str a2), ("refresh_token", .str r2)]⟩
          :: rest) calls =
      ⟨true, { st with access := some a2, refresh := some r2 }, rest,
        calls ++ ["/auth/refresh"]⟩ := by
  have e1 : jsGetProp (JsVal.obj [("access_token", .str a2), ("refresh_token", .str r2)])
      "access_token" = .ok (some (.str a2)) := rfl
  have e2 : jsGetProp (JsVal.obj [("access_token", .str a2), ("refresh_token", .str r2)])
      "refresh_token" = .ok (some (.str r2)) := rfl
  have e3 : jsGetProp (JsVal.obj [("access_token", .str a2), ("refresh_token", .str r2)])
      "user" = .ok none := rfl
  unfold refreshAccessToken
  simp only [hR]
  rw [if_neg hrT, if_neg (by simp [hrOK])]
  simp only [e1, e2, e3, jsSetItemString]
  rfl

/-- Helper: a refresh with a valid refresh token consuming a non-ok response
clears the store and reports failure. -/
theorem refreshAccessToken_fetch_fail (now : Rat) (st : LocalStorage)
    (calls : List String) (r : String) (resp : FetchResp) (rest : List FetchResp)
    (hR : st.refresh = some r) (hrT : r ≠ "") (hrOK : isTokenExpired now r = false)
    (hnok : resp.ok = false) :
    refreshAccessToken now st (resp :: rest) calls =
      ⟨false, ⟨none, none, none⟩, rest, calls ++ ["/auth/refresh"]⟩ := by
  unfold refreshAccessToken
  simp only [hR]
  rw [if_neg hrT, if_neg (by simp [hrOK])]
  simp only [hnok, Bool.false_eq_true, if_false, clearAuthData]

/-- C6: when an authenticated request with valid tokens hits a 401, the
client performs exactly one refresh attempt and at most one retry: with a
successful refresh the call list is exactly `[url, /auth/refresh, url]`; an
ok retry yields a successful structured result with the new access token
stored, a non-ok retry clears all identity state and navigates to sign-in
with no further fetch; and when the refresh itself fails the state is
cleared after exactly `[url, /auth/refresh]` with no retry at all. -/
theorem request_single_retry (now : Rat) (url : String) (a r a2 r2 : String)
    (st : LocalStorage) (b401 : JsVal) (retryResp : FetchResp)
    (hA : st.access = some a) (haT : a ≠ "") (haOK : isTokenExpired now a = false)
    (hR : st.refresh = some r) (hrT : r ≠ "") (hrOK : isTokenExpired now r = false)
    (ha2OK : isTokenExpired now a2 = false) :
    ((request now url true st
        [⟨false, 401, b401⟩,
         ⟨true, 200, .obj [("access_token", .str a2), ("refresh_token", .str r2)]⟩,
         retryResp]).calls = [url, "/auth/refresh", url] ∧
      (retryResp.ok = true →
        (request now url true st
          [⟨false, 401, b401⟩,
           ⟨true, 200, .obj [("access_token", .str a2), ("refresh_token", .str r2)]⟩,
           retryResp]).result = .ok ⟨true, some retryResp.body, none⟩ ∧
        (request now url true st
          [⟨false, 401, b401⟩,
           ⟨true, 200, .obj [("access_token", .str a2), ("refresh_token", .str r2)]⟩,
           retryResp]).store.access = some a2 ∧
        (request now url true st
          [⟨false, 401, b401⟩,
           ⟨true, 200, .obj [("access_token", .str a2), ("refresh_token", .str r2)]⟩,
           retryResp]).navSignin = false) ∧
      (retryResp.ok = false →
        (request now url true st
          [⟨false, 401, b401⟩,
           ⟨true, 200, .obj [("access_token", .str a2), ("refresh_token", .str r2)]⟩,
           retryResp]).store = ⟨none, none, none⟩ ∧
        (request now url true st
          [⟨false, 401, b401⟩,
           ⟨true, 200, .obj [("access_token", .str a2), ("refresh_token", .str r2)]⟩,
           retryResp]).navSignin = true)) ∧
    ((request now url true st [⟨false, 401, b401⟩, ⟨false, 500, .null⟩]).calls
        = [url, "/auth/refresh"] ∧
      (request now url true st [⟨false, 401, b401⟩, ⟨false, 500, .null⟩]).store
        = ⟨none, none, none⟩ ∧
      (request now url true st [⟨false, 401, b401⟩, ⟨false, 500, .null⟩]).navSignin
        = true) := by
  have hguard : ¬ ((true : Bool) ∧ ¬ strTruthy st.access) := by
    simp [strTruthy, hA, haT]
  constructor
  · obtain ⟨h1, hH1⟩ := getHeadersM_fresh now st
      [⟨false, 401, b401⟩,
       ⟨true, 200, .obj [("access_token", .str a2), ("refresh_token", .str r2)]⟩,
       retryResp] [] a hA haOK
    have hRef := refreshAccessToken_fetch_ok now st [url] r a2 r2 [retryResp] hR hrT hrOK
    obtain ⟨h2, hH2⟩ := getHeadersM_fresh now
      { st with access := some a2, refresh := some r2 } [retryResp]
      [url, "/auth/refresh"] a2 rfl ha2OK
    unfold request
    rw [if_neg hguard, hH1]
    simp only [List.nil_append, List.cons_append, hRef, hH2, Bool.false_eq_true,
      ite_false, ite_true]
    refine ⟨?_, ?_, ?_⟩
    · split <;> rfl
    · intro hok
      simp [hok]
    · intro hnok
      simp [hnok, clearAuthData]
  · obtain ⟨h1, hH1⟩ := getHeadersM_fresh now st
      [⟨false, 401, b401⟩, ⟨false, 500, .null⟩] [] a hA haOK
    have hRef := refreshAccessToken_fetch_fail now st [url] r ⟨false, 500, .null⟩ []
      hR hrT hrOK rfl
    unfold request
    rw [if_neg hguard, hH1]
    simp only [List.nil_append, List.cons_append, hRef, Bool.false_eq_true,
      ite_false, ite_true]
    simp [clearAuthData]

/-- C6 witness: a concrete 401/refresh/retry run with unexpired JWTs. -/
theorem request_single_retry_witness :
    (request 1000 "/api/scan" true
      ⟨some "h.eyJleHAiOjk5OTk5OTk5OTl9.s", some "h.eyJleHAiOjk5OTk5OTk5OTl9.s", none⟩
      [⟨false, 401, .null⟩,
       ⟨true, 200, .obj [("access_token", .str "a2.eyJleHAiOjk5OTk5OTk5OTl9.s"),
          ("refresh_token", .str "r2")]⟩,
       ⟨true, 200, .str "fresh"⟩]).calls = ["/api/scan", "/auth/refresh", "/api/scan"] := by
  have h := request_single_retry 1000 "/api/scan"
    "h.eyJleHAiOjk5OTk5OTk5OTl9.s" "h.eyJleHAiOjk5OTk5OTk5OTl9.s"
    "a2.eyJleHAiOjk5OTk5OTk5OTl9.s" "r2"
    ⟨some "h.eyJleHAiOjk5OTk5OTk5OTl9.s", some "h.eyJleHAiOjk5OTk5OTk5OTl9.s", none⟩
    .null ⟨true, 200, .str "fresh"⟩
    rfl (by decide) (by decide) rfl (by decide) (by decide) (by decide)
  exact h.1.1

/-- C10: a `requireAuth := false` request (no stored access token) that
receives a 401 performs no refresh and no retry — exactly one fetch — yet
still clears all stored identity state, navigates to `/signin`, and returns
the structured failure built from the response body. -/
theorem request_noauth_401 (now : Rat) (url : String) (st : LocalStorage)
    (hA : st.access = none) (b : JsVal) (rest : List FetchResp) :
    request now url false st (⟨false, 401, b⟩ :: rest) =
      ⟨.ok ⟨false, some b, some (jsErrMsg b)⟩, ⟨none, none, none⟩, [url], true⟩ := by
  obtain ⟨h1, hH1⟩ := getHeadersM_noToken now st (⟨false, 401, b⟩ :: rest) [] hA
  unfold request
  rw [if_neg (by simp)]
  rw [hH1]
  simp only [List.nil_append, Bool.false_eq_true, ite_false, ite_true, clearAuthData]

/-- C10 witness: a concrete unauthenticated 401 with a FastAPI-style
`detail` body. -/
theorem request_noauth_401_witness :
    request 7 "/api/scan" false ⟨none, some "rr", some "uu"⟩
        [⟨false, 401, .obj [("detail", .str "Unauthorized")]⟩] =
      ⟨.ok ⟨false, some (.obj [("detail", .str "Unauthorized")]),
          some (jsErrMsg (.obj [("detail", .str "Unauthorized")]))⟩,
        ⟨none, none, none⟩, ["/api/scan"], true⟩ :=
  request_noauth_401 7 "/api/scan" ⟨none, some "rr", some "uu"⟩ rfl
    (.obj [("detail", .str "Unauthorized")]) []

/-- C5 counterexample: with no tokens at all a request to `/onboarding` is
passed through untouched — no cookie clearing, no redirect to sign-in —
contradicting the claim that every non-sign-in request in this state is
redirected with the three identity cookies cleared. -/
theorem middleware_absent_tokens_counterexample :
    middleware 1000 none ⟨"/onboarding", none, none, none, none⟩
        = MwResponse.next [] [] [] ∧
    middleware 1000 none ⟨"/onboarding", none, none, none, none⟩
        ≠ MwResponse.redirect "/signin" identityCookies := by
  constructor <;> decide

/-- C5 amended: when the access token is PRESENT but expired and the refresh
token is absent, empty, or expired, the middleware clears the three identity
cookies and redirects to sign-in — except that a request already targeting
`/signin` passes through (also with the cookies cleared).  When the access
token is absent this clearing branch is not taken (see the counterexample). -/
theorem middleware_expired_unrefreshable (now : Rat)
    (rr : Option (String × String)) (req : MwRequest) (t : String)
    (hskip : mwSkip req.pathname = false)
    (hA : req.cookieAccess = some t) (ht : t ≠ "")
    (hexp : isTokenExpired now t = true)
    (hR : req.cookieRefresh = none ∨ req.cookieRefresh = some "" ∨
      ∃ rt, req.cookieRefresh = some rt ∧ isTokenExpired now rt = true) :
    middleware now rr req =
      if req.pathname = "/signin" then MwResponse.next [] identityCookies []
      else MwResponse.redirect "/signin" identityCookies := by
  rcases hR with hR | hR | ⟨rt, hR, hrtexp⟩
  · simp [middleware, hskip, hA, hR, jsOrStr, ht, hexp]
  · simp [middleware, hskip, hA, hR, jsOrStr, ht, hexp]
  · simp [middleware, hskip, hA, hR, jsOrStr, ht, hexp, hrtexp]

/-- C5 witness: an expired access token and no refresh token on
`/dashboard` yields the clearing redirect. -/
theorem middleware_expired_unrefreshable_witness :
    middleware 1000 none ⟨"/dashboard", some "h.eyJleHAiOjB9.s", none, none, none⟩
      = MwResponse.redirect "/signin" identityCookies := by
  have h := middleware_expired_unrefreshable 1000 none
    ⟨"/dashboard", some "h.eyJleHAiOjB9.s", none, none, none⟩ "h.eyJleHAiOjB9.s"
    (by decide) rfl (by decide) (by decide) (Or.inl rfl)
  rw [h]
  decide

/-- Helper: reading back the cookie just set yields the new value. -/
theorem cookieGet_set_same (cs : List (String × String)) (n v : String) :
    cookieGet (setCookieStore cs n v) n = some v := by
  unfold cookieGet setCookieStore
  rw [List.find?_append]
  have h1 : List.find? (fun p => p.1 = n)
      (List.filter (fun p => decide (p.1 ≠ n)) cs) = none := by
    rw [List.find?_eq_none]
    intro x hx
    have hne := (List.mem_filter.mp hx).2
    simp at hne ⊢
    exact hne
  rw [h1]
  simp [List.find?]

/-- Helper: setting one cookie leaves reads of other names unchanged. -/
theorem cookieGet_set_other (cs : List (String × String)) (n v m : String)
    (h : m ≠ n) : cookieGet (setCookieStore cs n v) m = cookieGet cs m := by
  unfold cookieGet setCookieStore
  rw [List.find?_append]
  have hnm : decide (n = m) = false := by
    simp
    exact Ne.symm h
  have h2 : List.find? (fun p => p.1 = m) [(n, v)] = none := by
    simp [List.find?, hnm]
  rw [h2, Option.or_none]
  have h3 : ∀ cs' : List (String × String),
      List.find? (fun p => p.1 = m) (List.filter (fun p => decide (p.1 ≠ n)) cs')
        = List.find? (fun p => p.1 = m) cs' := by
    intro cs'
    induction cs' with
    | nil => rfl
    | cons hd tl ih =>
        by_cases hh : hd.1 = n
        · have hm : (decide (hd.1 = m)) = false := by
            simp
            rw [hh]
            exact fun hc => h hc.symm
          rw [List.filter_cons, if_neg (by simp [hh])]
          rw [List.find?_cons_of_neg _ (by simp at hm ⊢; exact hm), ih]
        · rw [List.filter_cons, if_pos (by simp [hh])]
          by_cases hm : hd.1 = m
          · rw [List.find?_cons_of_pos _ (by simp [hm]),
              List.find?_cons_of_pos _ (by simp [hm])]
          · rw [List.find?_cons_of_neg _ (by simp [hm]),
              List.find?_cons_of_neg _ (by simp [hm]), ih]
  rw [h3]

/-- C8 counterexample: a successful refresh through the API client updates
only `localStorage`; the same-named access-token cookie still holds the old
token afterwards, so not every refresh call site leaves both channels on
the new pair. -/
theorem apiClient_refresh_stale_cookie_counterexample :
    (apiClientRefreshBrowser 1000
        ⟨⟨some "OLD", some "h.eyJleHAiOjk5OTk5OTk5OTl9.s", none⟩,
          [("cloudlens_access_token", "OLD")]⟩
        [⟨true, 200, .obj [("access_token", .str "NEW"),
            ("refresh_token", .str "NEWR")]⟩]).1 = true ∧
    (apiClientRefreshBrowser 1000
        ⟨⟨some "OLD", some "h.eyJleHAiOjk5OTk5OTk5OTl9.s", none⟩,
          [("cloudlens_access_token", "OLD")]⟩
        [⟨true, 200, .obj [("access_token", .str "NEW"),
            ("refresh_token", .str "NEWR")]⟩]).2.1.ls.access = some "NEW" ∧
    cookieGet (apiClientRefreshBrowser 1000
        ⟨⟨some "OLD", some "h.eyJleHAiOjk5OTk5OTk5OTl9.s", none⟩,
          [("cloudlens_access_token", "OLD")]⟩
        [⟨true, 200, .obj [("access_token", .str "NEW"),
            ("refresh_token", .str "NEWR")]⟩]).2.1.cookies
      "cloudlens_access_token" = some "OLD" := by
  refine ⟨by decide, by decide, by decide⟩

/-- C8 amended: the auth-context `storeAuthData` does write the fresh token
pair to both the durable store and the cookie channel; the API client's
refresh, however, updates only the `localStorage` store and always leaves
the cookie channel exactly as it was (the middleware's refresh, conversely,
sets only cookies — see `middleware`). -/
theorem refresh_channels (s : BrowserState) (a r : String)
    (ufields : List (String × JsVal)) :
    ((storeAuthData s (.obj [("access_token", .str a), ("refresh_token", .str r),
        ("user", .obj ufields)])).map (fun o => o.ls.access) = .ok (some a)) ∧
    ((storeAuthData s (.obj [("access_token", .str a), ("refresh_token", .str r),
        ("user", .obj ufields)])).map (fun o => o.ls.refresh) = .ok (some r)) ∧
    ((storeAuthData s (.obj [("access_token", .str a), ("refresh_token", .str r),
        ("user", .obj ufields)])).map
        (fun o => cookieGet o.cookies "cloudlens_access_token") = .ok (some a)) ∧
    ((storeAuthData s (.obj [("access_token", .str a), ("refresh_token", .str r),
        ("user", .obj ufields)])).map
        (fun o => cookieGet o.cookies "cloudlens_refresh_token") = .ok (some r)) ∧
    (∀ (now : Rat) (s' : BrowserState) (resps : List FetchResp),
      (apiClientRefreshBrowser now s' resps).2.1.cookies = s'.cookies) := by
  have e1 : jsGetProp (JsVal.obj [("access_token", .str a), ("refresh_token", .str r),
      ("user", .obj ufields)]) "access_token" = .ok (some (.str a)) := rfl
  have e2 : jsGetProp (JsVal.obj [("access_token", .str a), ("refresh_token", .str r),
      ("user", .obj ufields)]) "refresh_token" = .ok (some (.str r)) := rfl
  have e3 : jsGetProp (JsVal.obj [("access_token", .str a), ("refresh_token", .str r),
      ("user", .obj ufields)]) "user" = .ok (some (.obj ufields)) := rfl
  refine ⟨rfl, rfl, ?_, ?_, fun now s' resps => rfl⟩
  · simp only [storeAuthData, e1, e2, e3, transformUserData, jsSetItemString,
      Except.map]
    rw [cookieGet_set_other _ _ _ _ (by decide), cookieGet_set_other _ _ _ _ (by decide),
      cookieGet_set_same]
  · simp only [storeAuthData, e1, e2, e3, transformUserData, jsSetItemString,
      Except.map]
    rw [cookieGet_set_other _ _ _ _ (by decide), cookieGet_set_same]

end CloudLens
